import Mathlib

/-!
Verification of the AMI smart-meter simulator and gateway relay.

The definitions below are a shallow embedding of the Python sources
`smart_meter_analytics/edge_simulation/simulator.py` and
`ami_meter/edge_simulation/gateway_relay.py`.  Python floats are modelled
as rationals (`ℚ`), Python ints as `ℤ`/`ℕ`, and every random draw
(`random.random()`, `random.gauss`, `random.uniform`, `random.randint`)
is passed in explicitly as an oracle argument, so that each function is a
pure function of its state, its configuration and the draws it consumes.
-/

namespace AMI

/-- Embedding of the `SimulatorConfig` dataclass from `simulator.py`
(string-valued identity fields are kept as `String`, floats as `ℚ`,
integer durations as `ℤ`). -/
structure SimulatorConfig where
  pole_id : String
  num_meters : ℕ
  meter_id_prefix : String
  sample_interval_seconds : ℚ
  sample_hz : ℚ
  voltage_nominal : ℚ
  voltage_noise_std : ℚ
  sag_threshold : ℚ
  swell_threshold : ℚ
  sag_probability : ℚ
  sag_depth_min : ℚ
  sag_depth_max : ℚ
  sag_duration_min : ℤ
  sag_duration_max : ℤ
  base_load_kw : ℚ
  peak_morning_kw : ℚ
  peak_evening_kw : ℚ
  midday_kw : ℚ
  night_kw : ℚ
  noise_factor : ℚ
  meter_factor_min : ℚ
  meter_factor_max : ℚ
  pf_min : ℚ
  pf_max : ℚ
  pf_default : ℚ
  freq_nominal : ℚ
  freq_variation : ℚ
  force_sag_interval : ℤ := 0
  stdout_events : Bool := false

/-- The configuration built by `SimulatorConfig.from_yaml` on an empty
YAML document: every field takes the `.get(..., default)` fallback coded
in `simulator.py` (preset `high_frequency` gives a 30 s interval). -/
def defaultConfig : SimulatorConfig :=
  { pole_id := "pole_A"
    num_meters := 10
    meter_id_prefix := "m"
    sample_interval_seconds := 30
    sample_hz := 1 / 30
    voltage_nominal := 240
    voltage_noise_std := 3
    sag_threshold := 220
    swell_threshold := 260
    sag_probability := 1 / 1000
    sag_depth_min := 10
    sag_depth_max := 30
    sag_duration_min := 3
    sag_duration_max := 15
    base_load_kw := 1 / 2
    peak_morning_kw := 5 / 2
    peak_evening_kw := 4
    midday_kw := 1
    night_kw := 2 / 5
    noise_factor := 3 / 20
    meter_factor_min := 7 / 10
    meter_factor_max := 3 / 2
    pf_min := 17 / 20
    pf_max := 99 / 100
    pf_default := 19 / 20
    freq_nominal := 60
    freq_variation := 1 / 20 }

/-- Python float modulus `hour % 24`: the remainder with the sign of the
divisor, `h - 24 * ⌊h / 24⌋`, always landing in `[0, 24)`. -/
def hourMod24 (h : ℚ) : ℚ := h - 24 * ⌊h / 24⌋

/-- Embedding of `MeterSimulator._get_load_curve_factor`: normalise the
hour into `[0, 24)` with Python `%`, then walk the `if/elif` chain of the
source, reproducing each branch's arithmetic verbatim. -/
def getLoadCurveFactor (cfg : SimulatorConfig) (hour : ℚ) : ℚ :=
  let hour := hourMod24 hour
  if 0 ≤ hour ∧ hour < 5 then
    cfg.night_kw
  else if 5 ≤ hour ∧ hour < 6 then
    let t := hour - 5
    cfg.night_kw + t * (cfg.peak_morning_kw - cfg.night_kw)
  else if 6 ≤ hour ∧ hour < 9 then
    cfg.peak_morning_kw
  else if 9 ≤ hour ∧ hour < 10 then
    let t := hour - 9
    cfg.peak_morning_kw - t * (cfg.peak_morning_kw - cfg.midday_kw)
  else if 10 ≤ hour ∧ hour < 16 then
    cfg.midday_kw
  else if 16 ≤ hour ∧ hour < 17 then
    let t := hour - 16
    cfg.midday_kw + t * (cfg.peak_evening_kw - cfg.midday_kw)
  else if 17 ≤ hour ∧ hour < 21 then
    cfg.peak_evening_kw
  else if 21 ≤ hour ∧ hour < 22 then
    let t := hour - 21
    cfg.peak_evening_kw - t * (cfg.peak_evening_kw - cfg.night_kw)
  else
    cfg.night_kw

/-- Embedding of the `MeterState` dataclass of `simulator.py` (defaults
as in the Python source). -/
structure MeterState where
  meter_id : String
  pole_id : String
  seq : ℕ := 0
  meter_factor : ℚ := 1
  power_factor : ℚ := 19 / 20
  in_sag : Bool := false
  sag_remaining_seconds : ℤ := 0
  sag_depth : ℚ := 0

/-- Oracle for the random draws consumed by `_update_sag_state` /
`_should_start_sag` on one tick: `start` is the combined outcome of the
forced-sag check and the `random.random() < sag_probability` draw (only
consulted when the meter is not already in a sag), `depth` is the value
returned by `random.uniform(sag_depth_min, sag_depth_max)` and
`duration` the value returned by
`random.randint(sag_duration_min, sag_duration_max)`. -/
structure SagDraws where
  start : Bool
  depth : ℚ
  duration : ℤ

/-- Embedding of `MeterSimulator._update_sag_state`: mutate the sag part
of the meter state and return the voltage adjustment (negative during an
active sag).  The decrement happens before the `<= 0` test, and on sag
end the decremented remaining count is kept, exactly as in the source. -/
def updateSagState (m : MeterState) (d : SagDraws) : MeterState × ℚ :=
  if m.in_sag then
    let r := m.sag_remaining_seconds - 1
    if r ≤ 0 then
      ({ m with in_sag := false, sag_remaining_seconds := r, sag_depth := 0 }, 0)
    else
      ({ m with sag_remaining_seconds := r }, -m.sag_depth)
  else if d.start then
    ({ m with in_sag := true, sag_remaining_seconds := d.duration,
              sag_depth := d.depth }, -d.depth)
  else
    (m, 0)

/-- State of a meter after `n` successive sag-state updates, the tick
`i` consuming the draws `f i`. -/
def runSag (m : MeterState) (f : ℕ → SagDraws) : ℕ → MeterState
  | 0 => m
  | n + 1 => (updateSagState (runSag m f n) (f n)).1

/-- The spec's sag-state invariant: remaining ticks are positive exactly
while in a sag, and the stored depth is zero exactly outside a sag. -/
def SagInv (m : MeterState) : Prop :=
  (0 < m.sag_remaining_seconds ↔ m.in_sag = true) ∧
    (m.sag_depth = 0 ↔ m.in_sag = false)

/-- Linear interpolation between two plateau values, keyed by fractional
progress, as the spec words it. -/
def lerp (a b t : ℚ) : ℚ := (1 - t) * a + t * b

/-- Written from the SPEC, not the source: the piecewise-linear curve of
spec §4.1, with each ramp given as the linear interpolation between the
two adjacent plateau values keyed by fractional progress through the
range.  Defined only on the spec's stated domain `[0, 24)` (no
normalisation step). -/
def loadCurveSpecValue (cfg : SimulatorConfig) (h : ℚ) : ℚ :=
  if h < 5 then cfg.night_kw
  else if h < 6 then lerp cfg.night_kw cfg.peak_morning_kw ((h - 5) / (6 - 5))
  else if h < 9 then cfg.peak_morning_kw
  else if h < 10 then lerp cfg.peak_morning_kw cfg.midday_kw ((h - 9) / (10 - 9))
  else if h < 16 then cfg.midday_kw
  else if h < 17 then lerp cfg.midday_kw cfg.peak_evening_kw ((h - 16) / (17 - 16))
  else if h < 21 then cfg.peak_evening_kw
  else if h < 22 then lerp cfg.peak_evening_kw cfg.night_kw ((h - 21) / (22 - 21))
  else cfg.night_kw

theorem hourMod24_nonneg (h : ℚ) : 0 ≤ hourMod24 h := by
  unfold hourMod24
  have hfl : (⌊h / 24⌋ : ℚ) ≤ h / 24 := Int.floor_le (h / 24)
  nlinarith

theorem hourMod24_lt (h : ℚ) : hourMod24 h < 24 := by
  unfold hourMod24
  have hfl : h / 24 < (⌊h / 24⌋ : ℚ) + 1 := Int.lt_floor_add_one (h / 24)
  nlinarith

theorem hourMod24_eq_self {h : ℚ} (h0 : 0 ≤ h) (h24 : h < 24) :
    hourMod24 h = h := by
  unfold hourMod24
  have hz : ⌊h / 24⌋ = 0 := by
    rw [Int.floor_eq_zero_iff]
    constructor
    · positivity
    · rw [div_lt_one (by norm_num : (0:ℚ) < 24)]
      exact h24
  rw [hz]
  push_cast
  ring

theorem hourMod24_idem (h : ℚ) : hourMod24 (hourMod24 h) = hourMod24 h :=
  hourMod24_eq_self (hourMod24_nonneg h) (hourMod24_lt h)

theorem hourMod24_add_24 (h : ℚ) : hourMod24 (h + 24) = hourMod24 h := by
  unfold hourMod24
  have hdiv : (h + 24) / 24 = h / 24 + 1 := by ring
  rw [hdiv, Int.floor_add_one]
  push_cast
  ring

/-- CLAIM C5.  For every hour in `[0, 24)` the load-curve function of the
code returns exactly the spec's piecewise-linear value (night plateau on
`[0,5)`, ramps on `[5,6)`, `[9,10)`, `[16,17)`, `[21,22)` interpolating
between the adjacent plateaus by fractional progress, plateaus in
between, night plateau again on `[22,24)`), and it is deterministic:
identical inputs give identical outputs. -/
theorem load_curve_matches_spec (cfg : SimulatorConfig) (h : ℚ)
    (h0 : 0 ≤ h) (h24 : h < 24) :
    getLoadCurveFactor cfg h = loadCurveSpecValue cfg h ∧
      ∀ h2 : ℚ, h2 = h → getLoadCurveFactor cfg h2 = getLoadCurveFactor cfg h := by
  refine ⟨?_, fun h2 hEq => by rw [hEq]⟩
  unfold getLoadCurveFactor loadCurveSpecValue lerp
  dsimp only
  rw [hourMod24_eq_self h0 h24]
  rcases lt_or_le h 5 with h5 | h5
  · simp only [if_pos (show (0:ℚ) ≤ h ∧ h < 5 from ⟨h0, h5⟩), if_pos h5]
  have n1 : ¬((0:ℚ) ≤ h ∧ h < 5) := fun hc => by linarith [hc.2]
  have m1 : ¬(h < 5) := by linarith
  rcases lt_or_le h 6 with h6 | h6
  · simp only [if_neg n1, if_neg m1,
      if_pos (show (5:ℚ) ≤ h ∧ h < 6 from ⟨h5, h6⟩), if_pos h6]
    ring
  have n2 : ¬((5:ℚ) ≤ h ∧ h < 6) := fun hc => by linarith [hc.2]
  have m2 : ¬(h < 6) := by linarith
  rcases lt_or_le h 9 with h9 | h9
  · simp only [if_neg n1, if_neg m1, if_neg n2, if_neg m2,
      if_pos (show (6:ℚ) ≤ h ∧ h < 9 from ⟨h6, h9⟩), if_pos h9]
  have n3 : ¬((6:ℚ) ≤ h ∧ h < 9) := fun hc => by linarith [hc.2]
  have m3 : ¬(h < 9) := by linarith
  rcases lt_or_le h 10 with h10 | h10
  · simp only [if_neg n1, if_neg m1, if_neg n2, if_neg m2, if_neg n3, if_neg m3,
      if_pos (show (9:ℚ) ≤ h ∧ h < 10 from ⟨h9, h10⟩), if_pos h10]
    ring
  have n4 : ¬((9:ℚ) ≤ h ∧ h < 10) := fun hc => by linarith [hc.2]
  have m4 : ¬(h < 10) := by linarith
  rcases lt_or_le h 16 with h16 | h16
  · simp only [if_neg n1, if_neg m1, if_neg n2, if_neg m2, if_neg n3, if_neg m3,
      if_neg n4, if_neg m4,
      if_pos (show (10:ℚ) ≤ h ∧ h < 16 from ⟨h10, h16⟩), if_pos h16]
  have n5 : ¬((10:ℚ) ≤ h ∧ h < 16) := fun hc => by linarith [hc.2]
  have m5 : ¬(h < 16) := by linarith
  rcases lt_or_le h 17 with h17 | h17
  · simp only [if_neg n1, if_neg m1, if_neg n2, if_neg m2, if_neg n3, if_neg m3,
      if_neg n4, if_neg m4, if_neg n5, if_neg m5,
      if_pos (show (16:ℚ) ≤ h ∧ h < 17 from ⟨h16, h17⟩), if_pos h17]
    ring
  have n6 : ¬((16:ℚ) ≤ h ∧ h < 17) := fun hc => by linarith [hc.2]
  have m6 : ¬(h < 17) := by linarith
  rcases lt_or_le h 21 with h21 | h21
  · simp only [if_neg n1, if_neg m1, if_neg n2, if_neg m2, if_neg n3, if_neg m3,
      if_neg n4, if_neg m4, if_neg n5, if_neg m5, if_neg n6, if_neg m6,
      if_pos (show (17:ℚ) ≤ h ∧ h < 21 from ⟨h17, h21⟩), if_pos h21]
  have n7 : ¬((17:ℚ) ≤ h ∧ h < 21) := fun hc => by linarith [hc.2]
  have m7 : ¬(h < 21) := by linarith
  rcases lt_or_le h 22 with h22 | h22
  · simp only [if_neg n1, if_neg m1, if_neg n2, if_neg m2, if_neg n3, if_neg m3,
      if_neg n4, if_neg m4, if_neg n5, if_neg m5, if_neg n6, if_neg m6,
      if_neg n7, if_neg m7,
      if_pos (show (21:ℚ) ≤ h ∧ h < 22 from ⟨h21, h22⟩), if_pos h22]
    ring
  have n8 : ¬((21:ℚ) ≤ h ∧ h < 22) := fun hc => by linarith [hc.2]
  have m8 : ¬(h < 22) := by linarith
  simp only [if_neg n1, if_neg m1, if_neg n2, if_neg m2, if_neg n3, if_neg m3,
    if_neg n4, if_neg m4, if_neg n5, if_neg m5, if_neg n6, if_neg m6,
    if_neg n7, if_neg m7, if_neg n8, if_neg m8]

/-- Witness for C5 at the default configuration and hour 11/2 (inside the
morning ramp). -/
theorem load_curve_matches_spec_witness :
    (0:ℚ) ≤ 11 / 2 ∧ (11 / 2 : ℚ) < 24 ∧
      (getLoadCurveFactor defaultConfig (11 / 2) =
          loadCurveSpecValue defaultConfig (11 / 2) ∧
        ∀ h2 : ℚ, h2 = 11 / 2 →
          getLoadCurveFactor defaultConfig h2 =
            getLoadCurveFactor defaultConfig (11 / 2)) :=
  ⟨by norm_num, by norm_num,
    load_curve_matches_spec defaultConfig (11 / 2) (by norm_num) (by norm_num)⟩

/-- CLAIM C10.  The load-curve function is total over all rational hour
inputs and 24-periodic at the public interface: for every `h` it returns
the value at `h % 24`, and shifting the input by 24 leaves the output
unchanged. -/
theorem load_curve_periodic (cfg : SimulatorConfig) (h : ℚ) :
    getLoadCurveFactor cfg h = getLoadCurveFactor cfg (hourMod24 h) ∧
      getLoadCurveFactor cfg (h + 24) = getLoadCurveFactor cfg h := by
  constructor
  · unfold getLoadCurveFactor
    rw [hourMod24_idem]
  · unfold getLoadCurveFactor
    rw [hourMod24_add_24]

theorem updateSagState_not_in_sag_no_start (m : MeterState) (d : SagDraws)
    (hsag : m.in_sag = false) (hstart : d.start = false) :
    updateSagState m d = (m, 0) := by
  unfold updateSagState
  rw [if_neg (by simp [hsag]), if_neg (by simp [hstart])]

theorem updateSagState_start (m : MeterState) (d : SagDraws)
    (hsag : m.in_sag = false) (hstart : d.start = true) :
    updateSagState m d =
      ({ m with in_sag := true, sag_remaining_seconds := d.duration,
                sag_depth := d.depth }, -d.depth) := by
  unfold updateSagState
  rw [if_neg (by simp [hsag]), if_pos hstart]

theorem updateSagState_ending (m : MeterState) (d : SagDraws)
    (hsag : m.in_sag = true) (hend : m.sag_remaining_seconds - 1 ≤ 0) :
    updateSagState m d =
      ({ m with in_sag := false,
                sag_remaining_seconds := m.sag_remaining_seconds - 1,
                sag_depth := 0 }, 0) := by
  unfold updateSagState
  rw [if_pos hsag]
  dsimp only
  rw [if_pos hend]

theorem updateSagState_continuing (m : MeterState) (d : SagDraws)
    (hsag : m.in_sag = true) (hend : ¬m.sag_remaining_seconds - 1 ≤ 0) :
    updateSagState m d =
      ({ m with sag_remaining_seconds := m.sag_remaining_seconds - 1 },
        -m.sag_depth) := by
  unfold updateSagState
  rw [if_pos hsag]
  dsimp only
  rw [if_neg hend]

theorem updateSagState_inv (m : MeterState) (d : SagDraws)
    (hm : SagInv m) (hdur : 1 ≤ d.duration) (hdep : d.depth ≠ 0) :
    SagInv (updateSagState m d).1 := by
  obtain ⟨h1, h2⟩ := hm
  unfold SagInv
  cases hsag : m.in_sag with
  | false =>
    cases hstart : d.start with
    | false =>
      rw [updateSagState_not_in_sag_no_start m d hsag hstart]
      exact ⟨h1, h2⟩
    | true =>
      rw [updateSagState_start m d hsag hstart]
      dsimp only
      constructor
      · constructor
        · intro _; rfl
        · intro _; omega
      · constructor
        · intro hz; exact absurd hz hdep
        · intro hc; exact absurd hc (by simp)
  | true =>
    have hrem : 0 < m.sag_remaining_seconds := h1.mpr hsag
    have hdepth : m.sag_depth ≠ 0 := fun hz =>
      absurd (h2.mp hz) (by simp [hsag])
    by_cases hend : m.sag_remaining_seconds - 1 ≤ 0
    · rw [updateSagState_ending m d hsag hend]
      dsimp only
      constructor
      · constructor
        · intro hc; exact absurd hc (by omega)
        · intro hc; exact absurd hc (by simp)
      · simp
    · rw [updateSagState_continuing m d hsag hend]
      dsimp only
      constructor
      · constructor
        · intro _; exact hsag
        · intro _; omega
      · constructor
        · intro hz; exact absurd hz hdepth
        · intro hc; exact absurd hc (by simp [hsag])

theorem runSag_during (f : ℕ → SagDraws) (s : MeterState) (hs : s.in_sag = true) :
    ∀ j : ℕ, (j : ℤ) < s.sag_remaining_seconds →
      (runSag s f j).in_sag = true ∧
        (runSag s f j).sag_remaining_seconds = s.sag_remaining_seconds - j ∧
        (runSag s f j).sag_depth = s.sag_depth := by
  intro j
  induction j with
  | zero => exact fun _ => ⟨hs, by simp [runSag], rfl⟩
  | succ n ih =>
    intro hlt
    have hn : (n : ℤ) < s.sag_remaining_seconds := by push_cast at hlt ⊢; omega
    obtain ⟨hin, hrem, hdep⟩ := ih hn
    have hnotend : ¬(runSag s f n).sag_remaining_seconds - 1 ≤ 0 := by
      rw [hrem]; push_cast at hlt ⊢; omega
    simp only [runSag]
    rw [updateSagState_continuing _ _ hin hnotend]
    refine ⟨hin, ?_, hdep⟩
    show (runSag s f n).sag_remaining_seconds - 1 = _
    rw [hrem]; push_cast; ring

theorem runSag_end (f : ℕ → SagDraws) (s : MeterState) (hs : s.in_sag = true)
    (n : ℕ) (hn : (n : ℤ) = s.sag_remaining_seconds) (hpos : 1 ≤ n) :
    (runSag s f n).in_sag = false ∧ (runSag s f n).sag_depth = 0 := by
  obtain ⟨k, rfl⟩ : ∃ k, n = k + 1 := ⟨n - 1, by omega⟩
  obtain ⟨hin, hrem, -⟩ :=
    runSag_during f s hs k (by push_cast at hn ⊢; omega)
  have hend : (runSag s f k).sag_remaining_seconds - 1 ≤ 0 := by
    rw [hrem]; push_cast at hn ⊢; omega
  simp only [runSag]
  rw [updateSagState_ending _ _ hin hend]
  exact ⟨rfl, rfl⟩

/-- CLAIM C4.  For every meter state satisfying the sag invariant and
every tick sequence whose sampled durations are at least 1 and sampled
depths are nonzero (as any valid sag range yields): (1) after every tick
the invariants hold that `sag_remaining_ticks > 0` iff `in_sag` and
`sag_depth = 0` iff not `in_sag`; (2) once a sag starts with sampled
integer duration `d`, the `in_sag` flag is true for exactly the `d`
consecutive ticks starting with the triggering tick and is false (with
the depth reset to zero) on the tick after those. -/
theorem sag_state_machine (m : MeterState) (f : ℕ → SagDraws) (d0 : SagDraws)
    (hm : SagInv m) (hf : ∀ i, 1 ≤ (f i).duration ∧ (f i).depth ≠ 0)
    (hnot : m.in_sag = false) (hstart : d0.start = true)
    (hdur : 1 ≤ d0.duration) (_hdep : d0.depth ≠ 0) :
    (∀ n : ℕ, SagInv (runSag m f n)) ∧
      ((updateSagState m d0).1.in_sag = true ∧
        (∀ j : ℕ, (j : ℤ) < d0.duration →
          (runSag (updateSagState m d0).1 f j).in_sag = true) ∧
        ∀ n : ℕ, (n : ℤ) = d0.duration →
          (runSag (updateSagState m d0).1 f n).in_sag = false ∧
            (runSag (updateSagState m d0).1 f n).sag_depth = 0) := by
  have hs0 : (updateSagState m d0).1 =
      { m with in_sag := true, sag_remaining_seconds := d0.duration,
               sag_depth := d0.depth } := by
    simp [updateSagState, hnot, hstart]
  constructor
  · intro n
    induction n with
    | zero => exact hm
    | succ k ih => exact updateSagState_inv _ _ ih (hf k).1 (hf k).2
  · refine ⟨by rw [hs0], ?_, ?_⟩
    · intro j hj
      have := runSag_during f (updateSagState m d0).1 (by rw [hs0]) j
        (by rw [hs0]; exact hj)
      exact this.1
    · intro n hn
      refine runSag_end f (updateSagState m d0).1 (by rw [hs0]) n
        (by rw [hs0]; exact hn) ?_
      omega

/-- Fresh meter state used to witness the sag-machine theorem. -/
def witMeter : MeterState :=
  { meter_id := "m_pole_A_0000", pole_id := "pole_A" }

/-- Draw triggering a sag of depth 5 and duration 3 ticks. -/
def witDraw : SagDraws := ⟨true, 5, 3⟩

/-- Constant draw stream with depth 5 and duration 3. -/
def witStream : ℕ → SagDraws := fun _ => ⟨false, 5, 3⟩

/-- Witness for C4: a fresh meter, a constant draw stream of depth-5
duration-3 sags, and a triggering draw of duration 3. -/
theorem sag_state_machine_witness :
    SagInv witMeter ∧
      (∀ i : ℕ, 1 ≤ (witStream i).duration ∧ (witStream i).depth ≠ 0) ∧
      witMeter.in_sag = false ∧ witDraw.start = true ∧
      1 ≤ witDraw.duration ∧ witDraw.depth ≠ 0 ∧
      ((∀ n : ℕ, SagInv (runSag witMeter witStream n)) ∧
        ((updateSagState witMeter witDraw).1.in_sag = true ∧
          (∀ j : ℕ, (j : ℤ) < witDraw.duration →
            (runSag (updateSagState witMeter witDraw).1 witStream j).in_sag
              = true) ∧
          ∀ n : ℕ, (n : ℤ) = witDraw.duration →
            (runSag (updateSagState witMeter witDraw).1 witStream n).in_sag
                = false ∧
              (runSag (updateSagState witMeter witDraw).1 witStream n).sag_depth
                = 0)) := by
  have hInv : SagInv witMeter := by
    unfold SagInv witMeter
    simp
  have hStream : ∀ i : ℕ, 1 ≤ (witStream i).duration ∧ (witStream i).depth ≠ 0 :=
    fun i => by constructor <;> norm_num [witStream]
  exact ⟨hInv, hStream, rfl, rfl, by norm_num [witDraw], by norm_num [witDraw],
    sag_state_machine witMeter witStream witDraw hInv hStream rfl rfl
      (by norm_num [witDraw]) (by norm_num [witDraw])⟩

/-- Python `round(x, n)`: scale by `10^n`, round half to even, scale
back.  Modelled exactly on rationals (the source rounds IEEE doubles;
the idealised banker-rounding on `ℚ` is the standard shallow model). -/
def pyRound (x : ℚ) (n : ℕ) : ℚ :=
  let scaled := x * 10 ^ n
  let fl : ℤ := ⌊scaled⌋
  let frac := scaled - fl
  let r : ℤ :=
    if frac < 1 / 2 then fl
    else if 1 / 2 < frac then fl + 1
    else if 2 ∣ fl then fl else fl + 1
  (r : ℚ) / 10 ^ n

/-- Timestamp as the reading generator consumes it: the ISO-8601 string
produced by `isoformat()` plus the `hour`/`minute`/`second` components
read off the same `datetime`. -/
structure Timestamp where
  iso : String
  hour : ℕ
  minute : ℕ
  second : ℕ

/-- Hour with fractional component, as computed in `generate_reading`:
`timestamp.hour + timestamp.minute / 60.0 + timestamp.second / 3600.0`. -/
def hourFraction (ts : Timestamp) : ℚ :=
  (ts.hour : ℚ) + (ts.minute : ℚ) / 60 + (ts.second : ℚ) / 3600

/-- Oracle for the random draws consumed by one `generate_reading` call:
`power_gauss` is `random.gauss(0, noise_factor)`, `voltage_gauss` is
`random.gauss(0, voltage_noise_std)`, `sag` holds the draws of the sag
state machine, `freq_gauss` is `random.gauss(0, freq_variation)`. -/
structure ReadingDraws where
  power_gauss : ℚ
  voltage_gauss : ℚ
  sag : SagDraws
  freq_gauss : ℚ

/-- The reading record handed to the relay (field set of the dictionary
built at the end of `generate_reading`). -/
structure Reading where
  event_ts : String
  meter_id : String
  pole_id : String
  seq : ℕ
  voltage_v : ℚ
  current_a : ℚ
  power_kw : ℚ
  reactive_kvar : ℚ
  freq_hz : ℚ
  quality_flags : List String

/-- Power before rounding: load-curve base times per-meter factor times
the multiplicative noise `1.0 + random.gauss(0, noise_factor)`, clamped
with `max(0.0, ...)`. -/
def computedPower (cfg : SimulatorConfig) (m : MeterState) (ts : Timestamp)
    (d : ReadingDraws) : ℚ :=
  max 0 (getLoadCurveFactor cfg (hourFraction ts) * m.meter_factor *
    (1 + d.power_gauss))

/-- Voltage before rounding: nominal plus Gaussian noise plus the sag
adjustment returned by `_update_sag_state`. -/
def computedVoltage (cfg : SimulatorConfig) (m : MeterState)
    (d : ReadingDraws) : ℚ :=
  cfg.voltage_nominal + d.voltage_gauss + (updateSagState m d.sag).2

/-- Current before rounding: `(power_kw * 1000) / (voltage_v *
meter.power_factor)` when `voltage_v > 0 and power_kw > 0`, else 0. -/
def computedCurrent (v p pf : ℚ) : ℚ :=
  if 0 < v ∧ 0 < p then p * 1000 / (v * pf) else 0

/-- Quality flags: "voltage_sag" when below the sag threshold, else
"voltage_swell" when above the swell threshold (sag checked first). -/
def qualityFlags (cfg : SimulatorConfig) (v : ℚ) : List String :=
  if v < cfg.sag_threshold then ["voltage_sag"]
  else if cfg.swell_threshold < v then ["voltage_swell"]
  else []

/-- Embedding of `MeterSimulator.generate_reading`: returns the updated
meter state and the reading dictionary.  `tanacos` stands for the math
library function `fun pf => Real.tan (Real.arccos pf)` used for the
reactive power; it is irrelevant to every claim and passed explicitly
because the embedding works on rationals. -/
def generateReading (cfg : SimulatorConfig) (tanacos : ℚ → ℚ)
    (m : MeterState) (ts : Timestamp) (d : ReadingDraws) :
    MeterState × Reading :=
  let power_kw := computedPower cfg m ts d
  let meter1 := (updateSagState m d.sag).1
  let voltage_v := computedVoltage cfg m d
  let current_a := computedCurrent voltage_v power_kw m.power_factor
  let reactive_kvar := power_kw * tanacos m.power_factor
  let freq_hz := cfg.freq_nominal + d.freq_gauss
  let meter2 := { meter1 with seq := meter1.seq + 1 }
  (meter2,
    { event_ts := ts.iso
      meter_id := m.meter_id
      pole_id := m.pole_id
      seq := meter2.seq
      voltage_v := pyRound voltage_v 2
      current_a := pyRound current_a 3
      power_kw := pyRound power_kw 3
      reactive_kvar := pyRound reactive_kvar 3
      freq_hz := pyRound freq_hz 3
      quality_flags := qualityFlags cfg voltage_v })

/-- Readings produced by successive `generate_reading` calls threading
the meter state, one call per (timestamp, draws) input. -/
def runReadings (cfg : SimulatorConfig) (tanacos : ℚ → ℚ) :
    MeterState → List (Timestamp × ReadingDraws) → List Reading
  | _, [] => []
  | m, (ts, d) :: rest =>
    (generateReading cfg tanacos m ts d).2 ::
      runReadings cfg tanacos (generateReading cfg tanacos m ts d).1 rest

/-- Embedding of `NetworkProfile` from `gateway_relay.py`. -/
structure NetworkProfile where
  name : String
  latency_ms_min : ℤ
  latency_ms_max : ℤ
  jitter_ms : ℤ
  drop_prob : ℚ
  reorder_prob : ℚ

/-- The `config.get(key, default)` lookups consumed by
`NetworkProfile.from_config`: `none` models an absent key. -/
structure NetworkProfileRaw where
  latency_ms_min : Option ℤ := none
  latency_ms_max : Option ℤ := none
  jitter_ms : Option ℤ := none
  drop_prob : Option ℚ := none
  reorder_prob : Option ℚ := none

/-- Embedding of `NetworkProfile.from_config`: every field is
`config.get(key, default)`; the function is total and performs no
validation of the latency range or probabilities. -/
def NetworkProfile.fromConfig (name : String) (c : NetworkProfileRaw) :
    NetworkProfile :=
  { name := name
    latency_ms_min := c.latency_ms_min.getD 20
    latency_ms_max := c.latency_ms_max.getD 100
    jitter_ms := c.jitter_ms.getD 30
    drop_prob := c.drop_prob.getD (1 / 1000)
    reorder_prob := c.reorder_prob.getD (1 / 1000) }

/-- Embedding of `NetworkProfile.should_drop`: a Bernoulli draw, true
when the uniform sample `u = random.random()` is below `drop_prob`. -/
def shouldDrop (u drop_prob : ℚ) : Bool := decide (u < drop_prob)

/-- The nested `.get` lookups consumed by `SimulatorConfig.from_yaml`
(one `Option` per YAML key it reads; `none` models an absent key). -/
structure SimulatorYamlRaw where
  pole_id : Option String := none
  num_meters : Option ℕ := none
  meter_id_prefix : Option String := none
  preset : Option String := none
  sample_interval_seconds : Option ℚ := none
  sample_hz : Option ℚ := none
  nominal_v : Option ℚ := none
  noise_std : Option ℚ := none
  sag_threshold : Option ℚ := none
  swell_threshold : Option ℚ := none
  sag_probability : Option ℚ := none
  sag_depth_min : Option ℚ := none
  sag_depth_max : Option ℚ := none
  sag_duration_min : Option ℤ := none
  sag_duration_max : Option ℤ := none
  base_load_kw : Option ℚ := none
  peak_morning_kw : Option ℚ := none
  peak_evening_kw : Option ℚ := none
  midday_kw : Option ℚ := none
  night_kw : Option ℚ := none
  noise_factor : Option ℚ := none
  meter_factor_min : Option ℚ := none
  meter_factor_max : Option ℚ := none
  power_factor_min : Option ℚ := none
  power_factor_max : Option ℚ := none
  power_factor_default : Option ℚ := none
  nominal_hz : Option ℚ := none
  variation_hz : Option ℚ := none
  force_sag_interval_seconds : Option ℤ := none
  stdout_events : Option Bool := none

/-- The `preset_intervals` dictionary lookup of `from_yaml`. -/
def presetIntervals (preset : String) : Option ℚ :=
  if preset = "high_frequency" then some 30
  else if preset = "standard" then some 300
  else if preset = "low_frequency" then some 900
  else none

/-- Embedding of `SimulatorConfig.from_yaml`: every field is a `.get`
with a default; the sampling interval comes from the explicit value,
else from the preset (default 30).  The Python branch converting
`sample_hz` only fires when `sample_interval` is still `None`, which is
impossible at that point, so it is a no-op and elided.  The function is
total — it performs no range validation whatsoever. -/
def SimulatorConfig.fromYaml (r : SimulatorYamlRaw) : SimulatorConfig :=
  let preset := r.preset.getD "high_frequency"
  let sample_interval :=
    match r.sample_interval_seconds with
    | none => (presetIntervals preset).getD 30
    | some v => v
  { pole_id := r.pole_id.getD "pole_A"
    num_meters := r.num_meters.getD 10
    meter_id_prefix := r.meter_id_prefix.getD "m"
    sample_interval_seconds := sample_interval
    sample_hz := if 0 < sample_interval then 1 / sample_interval else 1
    voltage_nominal := r.nominal_v.getD 240
    voltage_noise_std := r.noise_std.getD 3
    sag_threshold := r.sag_threshold.getD 220
    swell_threshold := r.swell_threshold.getD 260
    sag_probability := r.sag_probability.getD (1 / 1000)
    sag_depth_min := r.sag_depth_min.getD 10
    sag_depth_max := r.sag_depth_max.getD 30
    sag_duration_min := r.sag_duration_min.getD 3
    sag_duration_max := r.sag_duration_max.getD 15
    base_load_kw := r.base_load_kw.getD (1 / 2)
    peak_morning_kw := r.peak_morning_kw.getD (5 / 2)
    peak_evening_kw := r.peak_evening_kw.getD 4
    midday_kw := r.midday_kw.getD 1
    night_kw := r.night_kw.getD (2 / 5)
    noise_factor := r.noise_factor.getD (3 / 20)
    meter_factor_min := r.meter_factor_min.getD (7 / 10)
    meter_factor_max := r.meter_factor_max.getD (3 / 2)
    pf_min := r.power_factor_min.getD (17 / 20)
    pf_max := r.power_factor_max.getD (99 / 100)
    pf_default := r.power_factor_default.getD (19 / 20)
    freq_nominal := r.nominal_hz.getD 60
    freq_variation := r.variation_hz.getD (1 / 20)
    force_sag_interval := r.force_sag_interval_seconds.getD 0
    stdout_events := r.stdout_events.getD false }

/-- The fixed `_reorder_delay_seconds = 2.0` of `GatewayRelay`. -/
def reorderDelaySeconds : ℚ := 2

/-- Observable relay state: the reorder buffer (enqueue time, message),
the counters touched by the main loop, and the ordered list of messages
handed to `_do_publish` (the outbound sink). -/
structure RelayState where
  buffer : List (ℚ × ℕ) := []
  received : ℕ := 0
  dropped : ℕ := 0
  reordered : ℕ := 0
  sink : List ℕ := []

/-- The while-loop of `_process_reorder_buffer`: split the buffer into
the due prefix (popped and forwarded) and the remaining suffix, stopping
at the first head entry whose delay has not yet elapsed. -/
def drainBuffer (now : ℚ) : List (ℚ × ℕ) → List (ℚ × ℕ) × List (ℚ × ℕ)
  | [] => ([], [])
  | e :: rest =>
    if reorderDelaySeconds ≤ now - e.1 then
      ((e :: (drainBuffer now rest).1), (drainBuffer now rest).2)
    else ([], e :: rest)

/-- Embedding of `GatewayRelay._process_reorder_buffer`: pop every due
entry off the front of the buffer and forward its message to the sink. -/
def processReorderBuffer (s : RelayState) (now : ℚ) : RelayState :=
  { s with buffer := (drainBuffer now s.buffer).2
           sink := s.sink ++ (drainBuffer now s.buffer).1.map Prod.snd }

/-- One `publish()` call with its oracle inputs: the message, the
outcomes of `should_drop()` and `should_reorder()`, the `time.time()`
read when enqueueing into the reorder buffer and the one read inside
`_process_reorder_buffer`. -/
structure PublishCall where
  msg : ℕ
  drop : Bool
  reorder : Bool
  enqueueTime : ℚ
  drainTime : ℚ

/-- Embedding of `GatewayRelay.publish`: record received; on drop,
record dropped and return False at once; otherwise enqueue (reorder) or
forward, then run the reorder-buffer drain pass and return True.  The
latency sleep touches no relay state and is elided. -/
def publish (s : RelayState) (c : PublishCall) : RelayState × Bool :=
  let s1 := { s with received := s.received + 1 }
  if c.drop then
    ({ s1 with dropped := s1.dropped + 1 }, false)
  else
    let s2 :=
      if c.reorder then
        { s1 with reordered := s1.reordered + 1,
                  buffer := s1.buffer ++ [(c.enqueueTime, c.msg)] }
      else
        { s1 with sink := s1.sink ++ [c.msg] }
    (processReorderBuffer s2 c.drainTime, true)

/-- A finite sequence of `publish()` calls, threading the relay state. -/
def runCalls (s : RelayState) (cs : List PublishCall) : RelayState :=
  cs.foldl (fun s c => (publish s c).1) s

/-- Embedding of `GatewayRelay.flush` (also run by `shutdown()`): pop
every remaining buffer entry in order and forward it to the sink. -/
def flush (s : RelayState) : RelayState :=
  { s with buffer := [], sink := s.sink ++ s.buffer.map Prod.snd }

/-- Relay state at construction time. -/
def initialRelayState : RelayState := {}

/-- Messages of the calls on which `should_drop()` returned false. -/
def nonDroppedMsgs (cs : List PublishCall) : List ℕ :=
  (cs.filter fun c => !c.drop).map PublishCall.msg

theorem pyRound_nonneg (x : ℚ) (n : ℕ) (hx : 0 ≤ x) : 0 ≤ pyRound x n := by
  unfold pyRound
  dsimp only
  have hfl : (0:ℤ) ≤ ⌊x * 10 ^ n⌋ := Int.floor_nonneg.mpr (by positivity)
  have hfl1 : (0:ℤ) ≤ ⌊x * 10 ^ n⌋ + 1 := by omega
  split_ifs with h1 h2 h3
  · exact div_nonneg (by exact_mod_cast hfl) (by positivity)
  · exact div_nonneg (by exact_mod_cast hfl1) (by positivity)
  · exact div_nonneg (by exact_mod_cast hfl) (by positivity)
  · exact div_nonneg (by exact_mod_cast hfl1) (by positivity)

theorem pyRound_dist (x : ℚ) (n : ℕ) : |pyRound x n - x| ≤ 1 / (2 * 10 ^ n) := by
  unfold pyRound
  dsimp only
  have h1 : (⌊x * 10 ^ n⌋ : ℚ) ≤ x * 10 ^ n := Int.floor_le _
  have h2 : x * 10 ^ n < ⌊x * 10 ^ n⌋ + 1 := Int.lt_floor_add_one _
  have hpow : (0:ℚ) < 10 ^ n := by positivity
  have key : ∀ r : ℤ, |(r:ℚ) - x * 10 ^ n| ≤ 1 / 2 →
      |(r:ℚ) / 10 ^ n - x| ≤ 1 / (2 * 10 ^ n) := by
    intro r hr
    have e : (r:ℚ) / 10 ^ n - x = ((r:ℚ) - x * 10 ^ n) / 10 ^ n := by
      field_simp
      ring
    rw [e, abs_div, abs_of_pos hpow,
      show (1:ℚ) / (2 * 10 ^ n) = (1 / 2) / 10 ^ n by ring]
    gcongr
  split_ifs with hf1 hf2 hf3
  · exact key _ (by rw [abs_le]; constructor <;> push_cast <;> linarith)
  · exact key _ (by rw [abs_le]; constructor <;> push_cast <;> linarith)
  · exact key _ (by rw [abs_le]; constructor <;> push_cast <;> linarith)
  · exact key _ (by rw [abs_le]; constructor <;> push_cast <;> linarith)

theorem computedCurrent_nonneg (v p pf : ℚ) (hp : 0 ≤ p) (hpf : 0 < pf) :
    0 ≤ computedCurrent v p pf := by
  unfold computedCurrent
  split_ifs with h
  · exact div_nonneg (mul_nonneg hp (by norm_num))
      (le_of_lt (mul_pos h.1 hpf))
  · exact le_refl 0

/-- CLAIM C6.  In every reading produced by `generate_reading` (for a
meter whose power factor is positive, as every draw from a valid
`pf_min`/`pf_max` range is): the power is clamped to be nonnegative, the
current is nonnegative, the current is 0 whenever the computed voltage
is non-positive (the division branch is never taken there), and when
both voltage and power are strictly positive the current is exactly
`(power × 1000) / (voltage × power_factor)` with a strictly positive
divisor — so the division is never evaluated with a non-positive
voltage. -/
theorem reading_current_power_safe (cfg : SimulatorConfig) (tanacos : ℚ → ℚ)
    (m : MeterState) (ts : Timestamp) (d : ReadingDraws)
    (hpf : 0 < m.power_factor) :
    0 ≤ (generateReading cfg tanacos m ts d).2.power_kw ∧
      0 ≤ (generateReading cfg tanacos m ts d).2.current_a ∧
      (computedVoltage cfg m d ≤ 0 →
        computedCurrent (computedVoltage cfg m d) (computedPower cfg m ts d)
          m.power_factor = 0) ∧
      (0 < computedVoltage cfg m d ∧ 0 < computedPower cfg m ts d →
        0 < computedVoltage cfg m d * m.power_factor ∧
          (generateReading cfg tanacos m ts d).2.current_a =
            pyRound (computedPower cfg m ts d * 1000 /
              (computedVoltage cfg m d * m.power_factor)) 3) := by
  have hr : (generateReading cfg tanacos m ts d).2.power_kw =
      pyRound (computedPower cfg m ts d) 3 := rfl
  have hc : (generateReading cfg tanacos m ts d).2.current_a =
      pyRound (computedCurrent (computedVoltage cfg m d)
        (computedPower cfg m ts d) m.power_factor) 3 := rfl
  refine ⟨?_, ?_, ?_, ?_⟩
  · rw [hr]; exact pyRound_nonneg _ _ (le_max_left 0 _)
  · rw [hc]
    exact pyRound_nonneg _ _
      (computedCurrent_nonneg _ _ _ (le_max_left 0 _) hpf)
  · intro hv
    unfold computedCurrent
    rw [if_neg]
    rintro ⟨hcontra, -⟩
    linarith
  · rintro ⟨hv, hp⟩
    refine ⟨mul_pos hv hpf, ?_⟩
    rw [hc]
    unfold computedCurrent
    rw [if_pos ⟨hv, hp⟩]

/-- Timestamp used in witnesses (midnight). -/
def witTs : Timestamp := ⟨"2024-01-01T00:00:00+00:00", 0, 0, 0⟩

/-- Neutral reading draws used in witnesses (all Gaussian draws 0, no
sag trigger). -/
def witReadingDraws : ReadingDraws := ⟨0, 0, ⟨false, 0, 0⟩, 0⟩

/-- Witness for C6 at the default configuration and a fresh meter. -/
theorem reading_current_power_safe_witness :
    0 < witMeter.power_factor ∧
      (0 ≤ (generateReading defaultConfig (fun _ => 0) witMeter witTs
          witReadingDraws).2.power_kw ∧
        0 ≤ (generateReading defaultConfig (fun _ => 0) witMeter witTs
          witReadingDraws).2.current_a ∧
        (computedVoltage defaultConfig witMeter witReadingDraws ≤ 0 →
          computedCurrent (computedVoltage defaultConfig witMeter witReadingDraws)
            (computedPower defaultConfig witMeter witTs witReadingDraws)
            witMeter.power_factor = 0) ∧
        (0 < computedVoltage defaultConfig witMeter witReadingDraws ∧
            0 < computedPower defaultConfig witMeter witTs witReadingDraws →
          0 < computedVoltage defaultConfig witMeter witReadingDraws *
              witMeter.power_factor ∧
            (generateReading defaultConfig (fun _ => 0) witMeter witTs
                witReadingDraws).2.current_a =
              pyRound (computedPower defaultConfig witMeter witTs
                  witReadingDraws * 1000 /
                (computedVoltage defaultConfig witMeter witReadingDraws *
                  witMeter.power_factor)) 3)) :=
  ⟨by norm_num [witMeter],
    reading_current_power_safe defaultConfig (fun _ => 0) witMeter witTs
      witReadingDraws (by norm_num [witMeter])⟩

theorem updateSagState_offset_bounds (m : MeterState) (d : SagDraws)
    (dmax : ℚ) (h1 : 0 ≤ m.sag_depth) (h2 : m.sag_depth ≤ dmax)
    (h3 : 0 ≤ d.depth) (h4 : d.depth ≤ dmax) :
    -dmax ≤ (updateSagState m d).2 ∧ (updateSagState m d).2 ≤ 0 := by
  cases hsag : m.in_sag with
  | true =>
    by_cases hend : m.sag_remaining_seconds - 1 ≤ 0
    · rw [updateSagState_ending m d hsag hend]
      constructor
      · show -dmax ≤ (0:ℚ); linarith
      · show (0:ℚ) ≤ 0; linarith
    · rw [updateSagState_continuing m d hsag hend]
      constructor
      · show -dmax ≤ -m.sag_depth; linarith
      · show -m.sag_depth ≤ (0:ℚ); linarith
  | false =>
    cases hstart : d.start with
    | true =>
      rw [updateSagState_start m d hsag hstart]
      constructor
      · show -dmax ≤ -d.depth; linarith
      · show -d.depth ≤ (0:ℚ); linarith
    | false =>
      rw [updateSagState_not_in_sag_no_start m d hsag hstart]
      constructor
      · show -dmax ≤ (0:ℚ); linarith
      · show (0:ℚ) ≤ 0; linarith

theorem pyRound_int (x : ℚ) (n : ℕ) (m : ℤ) (hm : x * 10 ^ n = (m : ℚ)) :
    pyRound x n = x := by
  unfold pyRound
  dsimp only
  rw [hm, Int.floor_intCast, sub_self, if_pos (by norm_num : (0:ℚ) < 1 / 2)]
  rw [← hm]
  field_simp

/-- CLAIM C8 counterexample.  A reading generated with a Gaussian
voltage-noise draw of 13 V (no sag active, sag offset 0) stores
voltage 253 V, strictly above `nominal + 4·noise_std = 252 V`, the only
noise envelope the spec quantifies — the Gaussian noise term is not
clamped, so no fixed `max_noise` bounds all readings. -/
theorem voltage_bound_counterexample :
    (generateReading defaultConfig (fun _ => 0) witMeter witTs
        ⟨0, 13, ⟨false, 0, 0⟩, 0⟩).2.voltage_v = 253 ∧
      (updateSagState witMeter (⟨false, 0, 0⟩ : SagDraws)).2 = 0 ∧
      defaultConfig.voltage_nominal + 4 * defaultConfig.voltage_noise_std
        < 253 := by
  have hoff : (updateSagState witMeter (⟨false, 0, 0⟩ : SagDraws)).2 = 0 := rfl
  have hv : computedVoltage defaultConfig witMeter ⟨0, 13, ⟨false, 0, 0⟩, 0⟩
      = 253 := by
    unfold computedVoltage
    rw [hoff]
    norm_num [defaultConfig]
  have hfield : (generateReading defaultConfig (fun _ => 0) witMeter witTs
      ⟨0, 13, ⟨false, 0, 0⟩, 0⟩).2.voltage_v =
      pyRound (computedVoltage defaultConfig witMeter
        ⟨0, 13, ⟨false, 0, 0⟩, 0⟩) 2 := rfl
  refine ⟨?_, hoff, by norm_num [defaultConfig]⟩
  rw [hfield, hv, pyRound_int 253 2 25300 (by norm_num)]

/-- CLAIM C8 (amended).  The computed voltage is exactly nominal plus
the Gaussian noise draw plus the sag offset; whenever the noise draw has
absolute value at most `B` and the stored and drawn sag depths lie in
`[0, sag_depth_max]`, the computed voltage lies within
`[nominal − B − sag_depth_max, nominal + B]`; the stored reading field
is that value rounded half-to-even to two decimals. -/
theorem voltage_bound_amended (cfg : SimulatorConfig) (tanacos : ℚ → ℚ)
    (m : MeterState) (ts : Timestamp) (d : ReadingDraws) (B : ℚ)
    (hB : |d.voltage_gauss| ≤ B)
    (hd1 : 0 ≤ m.sag_depth) (hd2 : m.sag_depth ≤ cfg.sag_depth_max)
    (hd3 : 0 ≤ d.sag.depth) (hd4 : d.sag.depth ≤ cfg.sag_depth_max) :
    cfg.voltage_nominal - B - cfg.sag_depth_max ≤ computedVoltage cfg m d ∧
      computedVoltage cfg m d ≤ cfg.voltage_nominal + B ∧
      (generateReading cfg tanacos m ts d).2.voltage_v =
        pyRound (computedVoltage cfg m d) 2 := by
  obtain ⟨ho1, ho2⟩ :=
    updateSagState_offset_bounds m d.sag cfg.sag_depth_max hd1 hd2 hd3 hd4
  rw [abs_le] at hB
  unfold computedVoltage at *
  exact ⟨by linarith [hB.1], by linarith [hB.2], rfl⟩

/-- Witness for the amended C8 at the default configuration, noise draw
5 V and bound B = 12 V. -/
theorem voltage_bound_amended_witness :
    |ReadingDraws.voltage_gauss ⟨0, 5, ⟨false, 0, 0⟩, 0⟩| ≤ 12 ∧
      0 ≤ witMeter.sag_depth ∧
      witMeter.sag_depth ≤ defaultConfig.sag_depth_max ∧
      0 ≤ (SagDraws.mk false 0 0).depth ∧
      (SagDraws.mk false 0 0).depth ≤ defaultConfig.sag_depth_max ∧
      (defaultConfig.voltage_nominal - 12 - defaultConfig.sag_depth_max ≤
          computedVoltage defaultConfig witMeter ⟨0, 5, ⟨false, 0, 0⟩, 0⟩ ∧
        computedVoltage defaultConfig witMeter ⟨0, 5, ⟨false, 0, 0⟩, 0⟩ ≤
          defaultConfig.voltage_nominal + 12 ∧
        (generateReading defaultConfig (fun _ => 0) witMeter witTs
            ⟨0, 5, ⟨false, 0, 0⟩, 0⟩).2.voltage_v =
          pyRound (computedVoltage defaultConfig witMeter
            ⟨0, 5, ⟨false, 0, 0⟩, 0⟩) 2) :=
  ⟨by norm_num, by norm_num [witMeter], by norm_num [witMeter, defaultConfig],
    by norm_num, by norm_num [defaultConfig],
    voltage_bound_amended defaultConfig (fun _ => 0) witMeter witTs
      ⟨0, 5, ⟨false, 0, 0⟩, 0⟩ 12 (by norm_num) (by norm_num [witMeter])
      (by norm_num [witMeter, defaultConfig]) (by norm_num)
      (by norm_num [defaultConfig])⟩

/-- Afternoon timestamp (hour 7) used against `witTs3` below to exhibit
timestamp dependence. -/
def witTs2 : Timestamp := ⟨"2024-01-01T07:00:00+00:00", 7, 0, 0⟩

/-- Night timestamp (hour 3). -/
def witTs3 : Timestamp := ⟨"2024-01-01T03:00:00+00:00", 3, 0, 0⟩

theorem loadCurve_default_at_3 : getLoadCurveFactor defaultConfig 3 = 2 / 5 := by
  unfold getLoadCurveFactor
  dsimp only
  rw [hourMod24_eq_self (by norm_num) (by norm_num)]
  rw [if_pos (by norm_num : (0:ℚ) ≤ 3 ∧ (3:ℚ) < 5)]
  norm_num [defaultConfig]

theorem loadCurve_default_at_7 : getLoadCurveFactor defaultConfig 7 = 5 / 2 := by
  unfold getLoadCurveFactor
  dsimp only
  rw [hourMod24_eq_self (by norm_num) (by norm_num)]
  rw [if_neg (by rintro ⟨-, hc⟩; norm_num at hc),
    if_neg (by rintro ⟨-, hc⟩; norm_num at hc),
    if_pos (by norm_num : (6:ℚ) ≤ 7 ∧ (7:ℚ) < 9)]
  norm_num [defaultConfig]

theorem computedPower_witTs3 :
    computedPower defaultConfig witMeter witTs3 witReadingDraws = 2 / 5 := by
  unfold computedPower
  have hh : hourFraction witTs3 = 3 := by norm_num [hourFraction, witTs3]
  rw [hh, loadCurve_default_at_3]
  norm_num [witMeter, witReadingDraws]

theorem computedPower_witTs2 :
    computedPower defaultConfig witMeter witTs2 witReadingDraws = 5 / 2 := by
  unfold computedPower
  have hh : hourFraction witTs2 = 7 := by norm_num [hourFraction, witTs2]
  rw [hh, loadCurve_default_at_7]
  norm_num [witMeter, witReadingDraws]

/-- CLAIM C7 counterexample.  Two `generate_reading` calls with the same
configuration, the same meter state and the identical random-draw
stream, differing only in the wall-clock timestamp they observe (hour 3
vs hour 7), store different `power_kw` values — so the output is not
fully determined by the seed-derived draw order: timestamps (taken from
`datetime.now()` / `time.time()` in the source) enter the readings both
through `event_ts` and through the load curve. -/
theorem seed_determinism_counterexample :
    (generateReading defaultConfig (fun _ => 0) witMeter witTs3
        witReadingDraws).2.power_kw = 2 / 5 ∧
      (generateReading defaultConfig (fun _ => 0) witMeter witTs2
        witReadingDraws).2.power_kw = 5 / 2 ∧
      ((2:ℚ) / 5 ≠ 5 / 2) := by
  have h3 : (generateReading defaultConfig (fun _ => 0) witMeter witTs3
      witReadingDraws).2.power_kw =
      pyRound (computedPower defaultConfig witMeter witTs3 witReadingDraws) 3 :=
    rfl
  have h7 : (generateReading defaultConfig (fun _ => 0) witMeter witTs2
      witReadingDraws).2.power_kw =
      pyRound (computedPower defaultConfig witMeter witTs2 witReadingDraws) 3 :=
    rfl
  refine ⟨?_, ?_, by norm_num⟩
  · rw [h3, computedPower_witTs3, pyRound_int (2/5) 3 400 (by norm_num)]
  · rw [h7, computedPower_witTs2, pyRound_int (5/2) 3 2500 (by norm_num)]

/-- CLAIM C7 (amended).  Once the seed is fixed, the draw stream and the
observed timestamp stream together fully determine the output: if two
runs start from the same configuration and meter state and agree on
their first `n` (timestamp, draws) inputs, they produce the same first
`n` readings. -/
theorem readings_determined_by_inputs (cfg : SimulatorConfig)
    (tanacos : ℚ → ℚ) (n : ℕ) :
    ∀ (m : MeterState) (l1 l2 : List (Timestamp × ReadingDraws)),
      l1.take n = l2.take n →
      (runReadings cfg tanacos m l1).take n =
        (runReadings cfg tanacos m l2).take n := by
  induction n with
  | zero => intro m l1 l2 _; simp
  | succ k ih =>
    intro m l1 l2 h
    cases l1 with
    | nil =>
      cases l2 with
      | nil => rfl
      | cons b t2 => simp at h
    | cons a t1 =>
      cases l2 with
      | nil => simp at h
      | cons b t2 =>
        simp only [List.take_succ_cons, List.cons.injEq] at h
        obtain ⟨hab, ht⟩ := h
        subst hab
        obtain ⟨ts, dr⟩ := a
        simp only [runReadings, List.take_succ_cons]
        exact congrArg _ (ih _ t1 t2 ht)

/-- Witness for the amended C7: two singleton input lists agreeing on
their first element produce the same first reading. -/
theorem readings_determined_by_inputs_witness :
    ([(witTs3, witReadingDraws)] : List (Timestamp × ReadingDraws)).take 1 =
        ([(witTs3, witReadingDraws)] :
          List (Timestamp × ReadingDraws)).take 1 ∧
      (runReadings defaultConfig (fun _ => 0) witMeter
          [(witTs3, witReadingDraws)]).take 1 =
        (runReadings defaultConfig (fun _ => 0) witMeter
          [(witTs3, witReadingDraws)]).take 1 :=
  ⟨rfl, readings_determined_by_inputs defaultConfig (fun _ => 0) 1 witMeter
    [(witTs3, witReadingDraws)] [(witTs3, witReadingDraws)] rfl⟩

theorem drainBuffer_append (now : ℚ) (l : List (ℚ × ℕ)) :
    (drainBuffer now l).1 ++ (drainBuffer now l).2 = l := by
  induction l with
  | nil => rfl
  | cons e rest ih =>
    unfold drainBuffer
    split_ifs with h
    · dsimp only
      rw [List.cons_append, ih]
    · rfl

theorem drainBuffer_popped_due (now : ℚ) (l : List (ℚ × ℕ)) :
    ∀ e ∈ (drainBuffer now l).1, reorderDelaySeconds ≤ now - e.1 := by
  induction l with
  | nil => intro e he; simp [drainBuffer] at he
  | cons a rest ih =>
    intro e he
    unfold drainBuffer at he
    split_ifs at he with h
    · rcases List.mem_cons.mp he with rfl | hmem
      · exact h
      · exact ih e hmem
    · simp at he

theorem drainBuffer_rest_head (now : ℚ) (l : List (ℚ × ℕ)) :
    ∀ e ∈ (drainBuffer now l).2.head?, now - e.1 < reorderDelaySeconds := by
  induction l with
  | nil => intro e he; simp [drainBuffer] at he
  | cons a rest ih =>
    intro e he
    unfold drainBuffer at he
    split_ifs at he with h
    · exact ih e he
    · simp only [List.head?_cons, Option.mem_def, Option.some.injEq] at he
      subst he
      exact lt_of_not_le h

theorem processReorderBuffer_spec (s : RelayState) (now : ℚ) :
    ∃ popped : List (ℚ × ℕ),
      s.buffer = popped ++ (processReorderBuffer s now).buffer ∧
        (processReorderBuffer s now).sink = s.sink ++ popped.map Prod.snd ∧
        (∀ e ∈ popped, reorderDelaySeconds ≤ now - e.1) ∧
        ∀ e ∈ (processReorderBuffer s now).buffer.head?,
          now - e.1 < reorderDelaySeconds :=
  ⟨(drainBuffer now s.buffer).1, (drainBuffer_append now s.buffer).symm, rfl,
    drainBuffer_popped_due now s.buffer, drainBuffer_rest_head now s.buffer⟩

theorem processReorderBuffer_count (s : RelayState) (now : ℚ) (x : ℕ) :
    (processReorderBuffer s now).sink.count x +
        ((processReorderBuffer s now).buffer.map Prod.snd).count x =
      s.sink.count x + (s.buffer.map Prod.snd).count x := by
  have h2 : (s.buffer.map Prod.snd).count x =
      ((drainBuffer now s.buffer).1.map Prod.snd).count x +
        ((drainBuffer now s.buffer).2.map Prod.snd).count x := by
    rw [← List.count_append, ← List.map_append, drainBuffer_append]
  unfold processReorderBuffer
  dsimp only
  rw [List.count_append, h2]
  omega

theorem processReorderBuffer_len (s : RelayState) (now : ℚ) :
    (processReorderBuffer s now).sink.length +
        (processReorderBuffer s now).buffer.length =
      s.sink.length + s.buffer.length := by
  have h2 : s.buffer.length =
      (drainBuffer now s.buffer).1.length +
        (drainBuffer now s.buffer).2.length := by
    rw [← List.length_append, drainBuffer_append]
  unfold processReorderBuffer
  dsimp only
  rw [List.length_append, List.length_map]
  omega

theorem publish_dropped_eq (s : RelayState) (c : PublishCall)
    (hc : c.drop = true) :
    publish s c = ({ s with received := s.received + 1,
                            dropped := s.dropped + 1 }, false) := by
  unfold publish
  dsimp only
  rw [if_pos hc]

theorem publish_count (s : RelayState) (c : PublishCall) (x : ℕ) :
    (publish s c).1.sink.count x +
        ((publish s c).1.buffer.map Prod.snd).count x =
      s.sink.count x + (s.buffer.map Prod.snd).count x +
        (if c.drop then 0 else [c.msg].count x) := by
  cases hd : c.drop with
  | true =>
    rw [publish_dropped_eq s c hd]
    simp
  | false =>
    unfold publish
    dsimp only
    rw [if_neg (by simp [hd])]
    dsimp only
    cases hr : c.reorder with
    | true =>
      rw [if_pos rfl, processReorderBuffer_count]
      dsimp only
      simp [List.count_append] <;> omega
    | false =>
      rw [if_neg (by simp), processReorderBuffer_count]
      dsimp only
      simp [List.count_append] <;> omega

theorem publish_len (s : RelayState) (c : PublishCall) :
    (publish s c).1.sink.length + (publish s c).1.buffer.length =
      s.sink.length + s.buffer.length + (if c.drop then 0 else 1) := by
  cases hd : c.drop with
  | true =>
    rw [publish_dropped_eq s c hd]
    simp
  | false =>
    unfold publish
    dsimp only
    rw [if_neg (by simp [hd])]
    dsimp only
    cases hr : c.reorder with
    | true =>
      rw [if_pos rfl, processReorderBuffer_len]
      dsimp only
      simp <;> omega
    | false =>
      rw [if_neg (by simp), processReorderBuffer_len]
      dsimp only
      simp <;> omega

theorem publish_received_dropped (s : RelayState) (c : PublishCall) :
    (publish s c).1.received = s.received + 1 ∧
      (publish s c).1.dropped = s.dropped + (if c.drop then 1 else 0) := by
  cases hd : c.drop with
  | true =>
    rw [publish_dropped_eq s c hd]
    simp
  | false =>
    unfold publish
    dsimp only
    rw [if_neg (by simp [hd])]
    dsimp only
    cases hr : c.reorder with
    | true =>
      rw [if_pos rfl]
      exact ⟨rfl, by simp [processReorderBuffer]⟩
    | false =>
      rw [if_neg (by simp)]
      exact ⟨rfl, by simp [processReorderBuffer]⟩

theorem nonDroppedMsgs_cons (c : PublishCall) (cs : List PublishCall) :
    nonDroppedMsgs (c :: cs) =
      (if c.drop then [] else [c.msg]) ++ nonDroppedMsgs cs := by
  unfold nonDroppedMsgs
  cases hd : c.drop <;> simp [List.filter_cons, hd]

theorem runCalls_invariant (cs : List PublishCall) (s : RelayState) :
    (∀ x : ℕ, (runCalls s cs).sink.count x +
        ((runCalls s cs).buffer.map Prod.snd).count x =
      s.sink.count x + (s.buffer.map Prod.snd).count x +
        (nonDroppedMsgs cs).count x) ∧
      (runCalls s cs).sink.length + (runCalls s cs).buffer.length =
        s.sink.length + s.buffer.length + (nonDroppedMsgs cs).length ∧
      (runCalls s cs).received = s.received + cs.length ∧
      (runCalls s cs).dropped =
        s.dropped + (cs.filter (fun c => c.drop)).length := by
  induction cs generalizing s with
  | nil => simp [runCalls, nonDroppedMsgs]
  | cons c rest ih =>
    have step : runCalls s (c :: rest) = runCalls (publish s c).1 rest := rfl
    obtain ⟨ihc, ihl, ihr, ihd⟩ := ih (publish s c).1
    obtain ⟨hrec, hdrop⟩ := publish_received_dropped s c
    rw [step]
    refine ⟨?_, ?_, ?_, ?_⟩
    · intro x
      rw [ihc x, publish_count s c x, nonDroppedMsgs_cons, List.count_append]
      cases hd : c.drop <;> simp <;> omega
    · rw [ihl, publish_len s c, nonDroppedMsgs_cons, List.length_append]
      cases hd : c.drop <;> simp <;> omega
    · rw [ihr, hrec, List.length_cons]
      omega
    · rw [ihd, hdrop, List.filter_cons]
      cases hd : c.drop <;> simp [hd] <;> omega

theorem flush_count (cs : List PublishCall) (x : ℕ) :
    (flush (runCalls initialRelayState cs)).sink.count x =
      (nonDroppedMsgs cs).count x := by
  obtain ⟨hc, -, -, -⟩ := runCalls_invariant cs initialRelayState
  have h := hc x
  have e1 : initialRelayState.sink = [] := rfl
  have e2 : initialRelayState.buffer = ([] : List (ℚ × ℕ)) := rfl
  rw [e1, e2] at h
  simp only [List.count_nil, List.map_nil, Nat.add_zero, Nat.zero_add] at h
  unfold flush
  dsimp only
  rw [List.count_append]
  omega

theorem flush_len (cs : List PublishCall) :
    (flush (runCalls initialRelayState cs)).sink.length =
      (nonDroppedMsgs cs).length := by
  obtain ⟨-, hl, -, -⟩ := runCalls_invariant cs initialRelayState
  have e1 : initialRelayState.sink = [] := rfl
  have e2 : initialRelayState.buffer = ([] : List (ℚ × ℕ)) := rfl
  rw [e1, e2] at hl
  simp only [List.length_nil, Nat.add_zero, Nat.zero_add] at hl
  unfold flush
  dsimp only
  rw [List.length_append, List.length_map]
  omega

theorem flush_received (cs : List PublishCall) :
    (flush (runCalls initialRelayState cs)).received = cs.length := by
  obtain ⟨-, -, hr, -⟩ := runCalls_invariant cs initialRelayState
  simp [initialRelayState] at hr
  exact hr

theorem flush_dropped (cs : List PublishCall) :
    (flush (runCalls initialRelayState cs)).dropped =
      (cs.filter fun c => c.drop).length := by
  obtain ⟨-, -, -, hd⟩ := runCalls_invariant cs initialRelayState
  simp [initialRelayState] at hd
  exact hd

theorem nonDropped_filter_length (cs : List PublishCall) :
    (nonDroppedMsgs cs).length + (cs.filter fun c => c.drop).length
      = cs.length := by
  induction cs with
  | nil => rfl
  | cons c rest ih =>
    rw [nonDroppedMsgs_cons, List.length_append, List.filter_cons]
    cases hd : c.drop <;> simp [hd] <;> omega

/-- CLAIM C2.  For any finite sequence of `publish()` calls starting
from a fresh relay, after `shutdown()` runs `flush()`: the reorder
buffer is empty, the number of messages handed to the outbound sink
equals received minus dropped, and every non-dropped message appears in
the sink exactly as often as it was published non-dropped (each is
forwarded exactly once). -/
theorem shutdown_flush_accounting (cs : List PublishCall) :
    (flush (runCalls initialRelayState cs)).buffer = [] ∧
      (flush (runCalls initialRelayState cs)).sink.length +
          (flush (runCalls initialRelayState cs)).dropped =
        (flush (runCalls initialRelayState cs)).received ∧
      (flush (runCalls initialRelayState cs)).sink.length =
        (flush (runCalls initialRelayState cs)).received -
          (flush (runCalls initialRelayState cs)).dropped ∧
      ∀ x : ℕ, (flush (runCalls initialRelayState cs)).sink.count x =
        (nonDroppedMsgs cs).count x := by
  have hlen := flush_len cs
  have hrec := flush_received cs
  have hdr := flush_dropped cs
  have hnd := nonDropped_filter_length cs
  refine ⟨rfl, by omega, by omega, flush_count cs⟩

theorem nonDroppedMsgs_all_dropped (cs : List PublishCall)
    (h : ∀ c ∈ cs, c.drop = true) : nonDroppedMsgs cs = [] := by
  induction cs with
  | nil => rfl
  | cons c rest ih =>
    rw [nonDroppedMsgs_cons, h c (by simp)]
    simp [ih fun cc hcc => h cc (List.mem_cons_of_mem c hcc)]

/-- CLAIM C3.  Whenever `should_drop()` returns true inside `publish()`,
the call increments the dropped counter by exactly 1, returns False,
and leaves the sink and the reorder buffer untouched; across any run,
a message that never occurs in a non-dropped call is never handed to
the sink, not even by a later drain or flush; and with drop probability
1.0 `should_drop()` is true for every uniform draw in `[0, 1)`, so
every call is dropped: after any all-dropped run plus flush, the sink
is empty and the dropped counter equals the number of calls. -/
theorem drop_branch_terminal (u : ℚ) (_hu0 : 0 ≤ u) (hu1 : u < 1)
    (s : RelayState) (c : PublishCall) (hc : c.drop = true)
    (cs2 : List PublishCall) (cs : List PublishCall)
    (hcs : ∀ cc ∈ cs, cc.drop = true) :
    shouldDrop u 1 = true ∧
      publish s c = ({ s with received := s.received + 1,
                              dropped := s.dropped + 1 }, false) ∧
      (∀ x : ℕ, x ∉ nonDroppedMsgs cs2 →
        (flush (runCalls initialRelayState cs2)).sink.count x = 0) ∧
      (flush (runCalls initialRelayState cs)).sink = [] ∧
      (flush (runCalls initialRelayState cs)).dropped = cs.length := by
  refine ⟨?_, publish_dropped_eq s c hc, ?_, ?_, ?_⟩
  · simp only [shouldDrop, decide_eq_true_eq]
    exact hu1
  · intro x hx
    rw [flush_count cs2 x]
    exact List.count_eq_zero.mpr hx
  · apply List.eq_nil_of_length_eq_zero
    rw [flush_len cs, nonDroppedMsgs_all_dropped cs hcs]
    rfl
  · rw [flush_dropped cs, List.filter_eq_self.mpr hcs]

/-- Witness for C3: uniform draw 1/2, one concrete dropped call on a
nonempty relay state, and the all-dropped run `[⟨5, drop, …⟩]`. -/
theorem drop_branch_terminal_witness :
    (0:ℚ) ≤ 1 / 2 ∧ (1/2 : ℚ) < 1 ∧
      (PublishCall.drop ⟨9, true, false, 0, 0⟩ = true) ∧
      (∀ cc ∈ ([⟨5, true, false, 0, 0⟩] : List PublishCall),
        cc.drop = true) ∧
      (shouldDrop (1/2) 1 = true ∧
        publish { buffer := [(0, 7)] } ⟨9, true, false, 0, 0⟩ =
          ({ ({ buffer := [(0, 7)] } : RelayState) with
              received := RelayState.received { buffer := [(0, 7)] } + 1,
              dropped := RelayState.dropped { buffer := [(0, 7)] } + 1 },
            false) ∧
        (∀ x : ℕ, x ∉ nonDroppedMsgs [⟨8, false, false, 0, 0⟩] →
          (flush (runCalls initialRelayState
            [⟨8, false, false, 0, 0⟩])).sink.count x = 0) ∧
        (flush (runCalls initialRelayState
          [⟨5, true, false, 0, 0⟩])).sink = [] ∧
        (flush (runCalls initialRelayState
          [⟨5, true, false, 0, 0⟩])).dropped =
          ([⟨5, true, false, 0, 0⟩] : List PublishCall).length) :=
  ⟨by norm_num, by norm_num, rfl, by simp,
    drop_branch_terminal (1/2) (by norm_num) (by norm_num)
      { buffer := [(0, 7)] } ⟨9, true, false, 0, 0⟩ rfl
      [⟨8, false, false, 0, 0⟩] [⟨5, true, false, 0, 0⟩] (by simp)⟩

/-- Relay state with one stale buffered entry, used in the C1
counterexample and witness. -/
def witRelay : RelayState := { buffer := [(0, 7)] }

/-- A dropped call arriving long after the buffered entry became due. -/
def witDropCall : PublishCall := ⟨1, true, false, 5, 10⟩

/-- The same late call, not dropped and not reordered. -/
def witFwdCall : PublishCall := ⟨1, false, false, 5, 10⟩

/-- CLAIM C1 counterexample.  A `publish()` call on which `should_drop`
returns true returns without draining: the reorder buffer still holds
the entry enqueued at time 0 even though at the call's drain time 10 its
release time has long passed (10 − 0 ≥ 2 = reorder delay).  The drain
pass therefore does not run on the dropped branch. -/
theorem drain_skipped_on_drop :
    (publish witRelay witDropCall).1.buffer = [(0, 7)] ∧
      reorderDelaySeconds ≤ witDropCall.drainTime - (0 : ℚ) := by
  constructor
  · rw [publish_dropped_eq witRelay witDropCall rfl]
    rfl
  · norm_num [reorderDelaySeconds, witDropCall]

/-- CLAIM C1 (amended).  On the delayed and forwarded branches (i.e.
whenever `should_drop()` returned false) the drain pass runs before
`publish()` returns: some prefix of due entries is popped off the
reorder buffer and forwarded to the sink in order, every popped entry's
release time has passed, and the remaining head entry (if any) is not
yet due; the call returns True.  On the dropped branch the call returns
immediately without draining (see the counterexample). -/
theorem publish_drains_unless_dropped (s : RelayState) (c : PublishCall)
    (h : c.drop = false) :
    ∃ popped : List (ℚ × ℕ),
      (if c.reorder then s.buffer ++ [(c.enqueueTime, c.msg)] else s.buffer)
          = popped ++ (publish s c).1.buffer ∧
        (publish s c).1.sink =
          (if c.reorder then s.sink else s.sink ++ [c.msg]) ++
            popped.map Prod.snd ∧
        (∀ e ∈ popped, reorderDelaySeconds ≤ c.drainTime - e.1) ∧
        (∀ e ∈ (publish s c).1.buffer.head?,
          c.drainTime - e.1 < reorderDelaySeconds) ∧
        (publish s c).2 = true := by
  by_cases hr : c.reorder = true
  · have hp : publish s c =
        (processReorderBuffer
          { s with received := s.received + 1,
                   reordered := s.reordered + 1,
                   buffer := s.buffer ++ [(c.enqueueTime, c.msg)] }
          c.drainTime, true) := by
      unfold publish
      dsimp only
      rw [if_neg (by simp [h]), if_pos hr]
    obtain ⟨pop, h1, h2, h3, h4⟩ := processReorderBuffer_spec
      { s with received := s.received + 1,
               reordered := s.reordered + 1,
               buffer := s.buffer ++ [(c.enqueueTime, c.msg)] } c.drainTime
    simp only [hp, if_pos hr]
    exact ⟨pop, h1, h2, h3, h4, trivial⟩
  · have hr2 : c.reorder = false := Bool.not_eq_true _ ▸ eq_false_of_ne_true hr
    have hp : publish s c =
        (processReorderBuffer
          { s with received := s.received + 1,
                   sink := s.sink ++ [c.msg] } c.drainTime, true) := by
      unfold publish
      dsimp only
      rw [if_neg (by simp [h]), if_neg hr]
    obtain ⟨pop, h1, h2, h3, h4⟩ := processReorderBuffer_spec
      { s with received := s.received + 1,
               sink := s.sink ++ [c.msg] } c.drainTime
    simp only [hp, if_neg hr]
    exact ⟨pop, h1, h2, h3, h4, trivial⟩

/-- Witness for the amended C1: the same stale-buffer state with a
non-dropped, non-reordered call — the stale entry is due and drained. -/
theorem publish_drains_unless_dropped_witness :
    witFwdCall.drop = false ∧
      ∃ popped : List (ℚ × ℕ),
        (if witFwdCall.reorder then
            witRelay.buffer ++ [(witFwdCall.enqueueTime, witFwdCall.msg)]
          else witRelay.buffer)
            = popped ++ (publish witRelay witFwdCall).1.buffer ∧
          (publish witRelay witFwdCall).1.sink =
            (if witFwdCall.reorder then witRelay.sink
              else witRelay.sink ++ [witFwdCall.msg]) ++
              popped.map Prod.snd ∧
          (∀ e ∈ popped,
            reorderDelaySeconds ≤ witFwdCall.drainTime - e.1) ∧
          (∀ e ∈ (publish witRelay witFwdCall).1.buffer.head?,
            witFwdCall.drainTime - e.1 < reorderDelaySeconds) ∧
          (publish witRelay witFwdCall).2 = true :=
  ⟨rfl, publish_drains_unless_dropped witRelay witFwdCall rfl⟩

/-- YAML document with inverted sag depth and duration ranges. -/
def badSimYaml : SimulatorYamlRaw :=
  { sag_depth_min := some 30, sag_depth_max := some 10,
    sag_duration_min := some 9, sag_duration_max := some 3 }

/-- Network profile section with `latency_ms_max < latency_ms_min`. -/
def badNetRaw : NetworkProfileRaw :=
  { latency_ms_min := some 100, latency_ms_max := some 5 }

/-- CLAIM C9 counterexample.  Loading a configuration whose upper bounds
are below the corresponding lower bounds does NOT fail: both
`SimulatorConfig.from_yaml` and `NetworkProfile.from_config` return
normally and store the inverted ranges verbatim — no fatal error occurs
at startup. -/
theorem config_invalid_range_accepted :
    (SimulatorConfig.fromYaml badSimYaml).sag_depth_max <
        (SimulatorConfig.fromYaml badSimYaml).sag_depth_min ∧
      (SimulatorConfig.fromYaml badSimYaml).sag_duration_max <
        (SimulatorConfig.fromYaml badSimYaml).sag_duration_min ∧
      (NetworkProfile.fromConfig "lte_m" badNetRaw).latency_ms_max <
        (NetworkProfile.fromConfig "lte_m" badNetRaw).latency_ms_min := by
  refine ⟨?_, ?_, ?_⟩ <;>
    norm_num [SimulatorConfig.fromYaml, badSimYaml, NetworkProfile.fromConfig,
      badNetRaw]

/-- CLAIM C9 (amended).  Configuration loading performs no range
validation: `from_yaml` and `from_config` are total and store whatever
bounds the document supplies (or the defaults), including inverted
ranges; nothing fails at startup.  (An invalid duration range only
surfaces later, when a sag actually starts and `random.randint` is
called with `min > max`.) -/
theorem config_loading_no_validation (r : SimulatorYamlRaw)
    (c : NetworkProfileRaw) (name : String) :
    (SimulatorConfig.fromYaml r).sag_depth_min = r.sag_depth_min.getD 10 ∧
      (SimulatorConfig.fromYaml r).sag_depth_max = r.sag_depth_max.getD 30 ∧
      (SimulatorConfig.fromYaml r).sag_duration_min =
        r.sag_duration_min.getD 3 ∧
      (SimulatorConfig.fromYaml r).sag_duration_max =
        r.sag_duration_max.getD 15 ∧
      (NetworkProfile.fromConfig name c).latency_ms_min =
        c.latency_ms_min.getD 20 ∧
      (NetworkProfile.fromConfig name c).latency_ms_max =
        c.latency_ms_max.getD 100 ∧
      (NetworkProfile.fromConfig name c).jitter_ms = c.jitter_ms.getD 30 ∧
      (NetworkProfile.fromConfig name c).drop_prob =
        c.drop_prob.getD (1 / 1000) :=
  ⟨rfl, rfl, rfl, rfl, rfl, rfl, rfl, rfl⟩

end AMI
